import Mathlib

/-!
Shallow embedding of the addressing engine of the `jsonschema` repository
(`helper.go`): pointer navigation over a schema document
(`GetSchemaMapByPointer`), local `$ref` resolution (`ResolveRef`,
`SchemaRefParse`), access-key generation (`GenAccessKeys` / `traverse`)
and access-key evaluation against data (`FindDataByAccessKey`).

Go values of type `any` decoded from JSON are modelled by `JValue`;
`map[string]any` is modelled as an association list (Go map iteration
order is unspecified, the list order stands in for one such order, and
decoded JSON maps never hold duplicate keys).  A Go function that can
panic is modelled with an explicit `crash` outcome; recursion that the
Go code performs without a termination guarantee is modelled with fuel
and a `nofuel` outcome, so that divergence of the Go code on an input
shows up as `nofuel` for every fuel value.
-/

namespace JsonschemaSpec

/-- JSON values as decoded by Go `encoding/json` into `any`: null (which
is also the nil interface), booleans, numbers, strings, `[]any`
sequences and `map[string]any` mappings.  The engine never computes with
numeric payloads, it only moves them, so numbers carry an `Int`. -/
inductive JValue where
  | null
  | bool (b : Bool)
  | num (n : Int)
  | str (s : String)
  | arr (xs : List JValue)
  | obj (kvs : List (String × JValue))

/-- The distinct error sites of `helper.go`.  Go errors are strings
(`errors.New` / `fmt.Errorf`); each constructor stands for one creation
site, with formatted payloads dropped. -/
inductive GoErr where
  | nonLocalRef
  | refNotFound
  | invalidRefValue
  | circularRef
  | pointerEmpty
  | invalidPointer
  | schemaEmpty
  | invalidSchemaType
  | invalidProperties
  | propertyNotFound
  | invalidItems
  | invalidIndexFormat
  | indexOutOfRange
  | itemNotMap
  | unsupportedType
deriving DecidableEq

/-- Outcome of a fallible Go function: a runtime panic, fuel exhaustion
of the embedding (the Go code would still be running), an error return,
or a normal result. -/
inductive GoRes (α : Type) where
  | crash
  | nofuel
  | err (e : GoErr)
  | ok (a : α)

/-- Outcome of the access-key evaluator, which has no error return: a
runtime panic, fuel exhaustion, or a returned `any` value (`JValue.null`
is Go's nil interface, covering both JSON null and "absent"). -/
inductive EvalRes where
  | crash
  | nofuel
  | val (v : JValue)

/-- Go `strings.Split(s, sep)` for a one-character separator, on the
character list: never empty, splitting the empty string gives `[[]]`. -/
def splitSep (sep : Char) : List Char → List Char → List (List Char)
  | [], acc => [acc.reverse]
  | c :: cs, acc =>
    if c = sep then acc.reverse :: splitSep sep cs []
    else splitSep sep cs (c :: acc)

/-- Go `strings.Split` packaged on `String`. -/
def goSplit (s : String) (sep : Char) : List String :=
  (splitSep sep s.data []).map String.mk

/-- Go `strings.Join(parts, sep)` for a one-character separator. -/
def joinSeps (sep : Char) : List (List Char) → List Char
  | [] => []
  | [x] => x
  | x :: y :: ys => x ++ sep :: joinSeps sep (y :: ys)

/-- Go `strings.Join(parts, ".")` on `String`. -/
def joinDot (l : List String) : String :=
  String.mk (joinSeps '.' (l.map String.data))

/-- Whether `strconv.Atoi` accepts the string: an optional single sign
followed by at least one ASCII digit, with nothing else. -/
def atoiOk (cs : List Char) : Bool :=
  match cs with
  | [] => false
  | '+' :: ds => !ds.isEmpty && ds.all Char.isDigit
  | '-' :: ds => !ds.isEmpty && ds.all Char.isDigit
  | ds => ds.all Char.isDigit

/-- Decimal value of a digit string. -/
def digitsVal (cs : List Char) : Nat :=
  cs.foldl (fun n c => n * 10 + (c.toNat - 48)) 0

/-- Value of `strconv.Atoi` with its error ignored, as the callers in
`helper.go` use it: the parsed integer on success and 0 on a syntax
error.  (On 64-bit overflow Go returns a clamped value together with an
error; the clamped and the exact value compare identically against the
list lengths and the zero bound used by this code, so the exact value is
kept.) -/
def atoiZ (cs : List Char) : Int :=
  if atoiOk cs then
    match cs with
    | '+' :: ds => (digitsVal ds : Int)
    | '-' :: ds => -(digitsVal ds : Int)
    | ds => (digitsVal ds : Int)
  else 0

/-- Go regexp `\*\.\d+`, unanchored as `regexp.MatchString` is: true iff
the string contains `*.` immediately followed by an ASCII digit. -/
def hasStarDotDigit : List Char → Bool
  | a :: b :: c :: rest =>
    (a = '*' && b = '.' && c.isDigit) || hasStarDotDigit (b :: c :: rest)
  | _ => false

/-- Go regexp `\*\.[^*]+`, unanchored: true iff the string contains `*.`
immediately followed by a character other than `*`. -/
def hasStarDotOther : List Char → Bool
  | a :: b :: c :: rest =>
    (a = '*' && b = '.' && !(c = '*')) || hasStarDotOther (b :: c :: rest)
  | _ => false

/-- Characters after the first occurrence of `*.`, i.e. Go
`key[strings.Index(key, "*.")+2:]`; the callers only reach this after a
regexp match, which guarantees an occurrence exists. -/
def afterStarDot : List Char → List Char
  | '*' :: '.' :: rest => rest
  | _ :: rest => afterStarDot rest
  | [] => []

/-- Pieces a wildcard-loop result contributes to the collection: Go
drops a nil result, splices a `[]any` result and appends anything
else. -/
def splicePieces (v : JValue) : List JValue :=
  match v with
  | .null => []
  | .arr es => es
  | v => [v]

/-- The collection loop of the `*` branches of `FindDataByAccessKey`:
evaluate `f` on each element in order, splice the results, propagate a
panic or fuel exhaustion of a recursive evaluation. -/
def wildFold (f : JValue → EvalRes) (acc : List JValue) : List JValue → EvalRes
  | [] => .val (.arr acc)
  | e :: es =>
    match f e with
    | .crash => .crash
    | .nofuel => .nofuel
    | .val v => wildFold f (acc ++ splicePieces v) es

/-- One collection step of the `\*\.[^*]+` mapping branch: a mapping
result contributes its `objKey` entry when present, a sequence result
contributes the `objKey` entry of each of its mapping elements, anything
else (including nil) contributes nothing. -/
def objPick (objKey : String) (acc : List JValue) (r : JValue) : List JValue :=
  match r with
  | .obj t =>
    match t.lookup objKey with
    | some v => acc ++ [v]
    | none => acc
  | .arr es =>
    acc ++ (es.filterMap fun sub =>
      match sub with
      | .obj so => so.lookup objKey
      | _ => none)
  | _ => acc

/-- The collection loop of the `\*\.[^*]+` mapping branch. -/
def objWildFold (objKey : String) (f : JValue → EvalRes) (acc : List JValue) :
    List JValue → EvalRes
  | [] => .val (.arr acc)
  | v :: vs =>
    match f v with
    | .crash => .crash
    | .nofuel => .nofuel
    | .val r => objWildFold objKey f (objPick objKey acc r) vs

/-- Segment loop of `FindDataByAccessKey` (helper.go:250-366) over the
already-split key list.  The recursive calls the Go code makes with
`strings.Join(keys[i+1:], ".")` re-split the joined remainder, exactly
as the source does; fuel bounds that recursion.  Notable source
behaviors kept faithfully: a non-`*` segment on a sequence uses
`strconv.Atoi` with the error ignored (0 on failure), returns `[]any{}`
when the index is `>= len` or the element is nil, and indexes the slice
without a lower bound check, a runtime panic when the parsed index is
negative; a mapping miss or nil mapping value returns nil; any other
current value returns nil. -/
def findKeysF : Nat → JValue → List String → EvalRes
  | 0, d, keys =>
    match keys with
    | [] => .val d
    | _ :: _ => .nofuel
  | fuel + 1, d, keys =>
    match keys with
    | [] => .val d
    | k :: rest =>
      match d with
      | .arr a =>
        if k = "*" then
          wildFold (fun e => findKeysF fuel e (goSplit (joinDot rest) '.')) [] a
        else if hasStarDotDigit k.data then
          let idx := atoiZ (afterStarDot k.data)
          if (a.length : Int) ≤ idx then .val .null
          else
            let picked : EvalRes :=
              if h : 0 ≤ idx ∧ idx.toNat < a.length then
                match findKeysF fuel (a.get ⟨idx.toNat, h.2⟩)
                    (goSplit (joinDot (rest.drop 1)) '.') with
                | .crash => .crash
                | .nofuel => .nofuel
                | .val v => .val (.arr (splicePieces v))
              else .val (.arr [])
            match picked with
            | .crash => .crash
            | .nofuel => .nofuel
            | .val r => findKeysF fuel r (rest.drop 1)
        else
          let idx := atoiZ k.data
          if (a.length : Int) ≤ idx then .val (.arr [])
          else if idx < 0 then .crash
          else
            match a.getD idx.toNat .null with
            | .null => .val (.arr [])
            | e => findKeysF fuel e rest
      | .obj m =>
        if k = "*" then
          wildFold (fun e => findKeysF fuel e (goSplit (joinDot rest) '.')) []
            (m.map Prod.snd)
        else if hasStarDotOther k.data then
          match objWildFold (String.mk (afterStarDot k.data))
              (fun v => findKeysF fuel v (goSplit (joinDot (rest.drop 1)) '.')) []
              (m.map Prod.snd) with
          | .crash => .crash
          | .nofuel => .nofuel
          | .val r => findKeysF fuel r (rest.drop 1)
        else
          match m.lookup k with
          | none => .val .null
          | some .null => .val .null
          | some v => findKeysF fuel v rest
      | _ => .val .null

/-- Entry point `FindDataByAccessKey(data, accessKey)`: split the key on
`.` and run the segment loop. -/
def FindDataByAccessKey (fuel : Nat) (data : JValue) (accessKey : String) : EvalRes :=
  findKeysF fuel data (goSplit accessKey '.')

/-- Walk of `ResolveRef` (helper.go:19-34) over the split ref path: the
presence check `target[part]` errors on a miss, after which the
unchecked type assertion `target[part].(map[string]any)` panics whenever
the stored value is not a mapping. -/
def refWalk : List String → List (String × JValue) → GoRes (List (String × JValue))
  | [], target => .ok target
  | p :: ps, target =>
    match target.lookup p with
    | none => .err .refNotFound
    | some (.obj m) => refWalk ps m
    | some _ => .crash

/-- Whether the string starts with `#`. -/
def startsWithHash (s : String) : Bool :=
  match s.data with
  | '#' :: _ => true
  | _ => false

/-- Go `strings.TrimPrefix(ref, "#/")`. -/
def stripHashSlash (s : String) : String :=
  match s.data with
  | '#' :: '/' :: rest => String.mk rest
  | _ => s

/-- `ResolveRef(ref)` (helper.go:19-34): reject a ref that does not
start with `#`, strip a `#/` prefix, split the remainder on `/` and walk
the document root mapping. -/
def ResolveRef (raw : List (String × JValue)) (ref : String) :
    GoRes (List (String × JValue)) :=
  if startsWithHash ref then
    refWalk (goSplit (stripHashSlash ref) '/') raw
  else .err .nonLocalRef

/-- `SchemaRefParse(schema)` (helper.go:138-165).  The Go code records
visited targets in `c.visited`, a map keyed by `&refSchema` — the
address of a local variable that is freshly allocated on every call — so
the `c.visited[&refSchema]` membership test is always false and the
`circular reference detected` error can never fire; the embedding keeps
that always-false branch dropped and bounds the unguarded recursion with
fuel, so a cyclic chain yields `nofuel` at every fuel value. -/
def SchemaRefParse (raw : List (String × JValue)) :
    Nat → List (String × JValue) → GoRes (List (String × JValue))
  | 0, schema =>
    match schema.lookup "$ref" with
    | none => .ok schema
    | some (.str ref) =>
      match ResolveRef raw ref with
      | .err e => .err e
      | .crash => .crash
      | .nofuel => .nofuel
      | .ok _ => .nofuel
    | some _ => .err .invalidRefValue
  | fuel + 1, schema =>
    match schema.lookup "$ref" with
    | none => .ok schema
    | some (.str ref) =>
      match ResolveRef raw ref with
      | .err e => .err e
      | .crash => .crash
      | .nofuel => .nofuel
      | .ok refSchema => SchemaRefParse raw fuel refSchema
    | some _ => .err .invalidRefValue

/-- Segment loop of `GetSchemaMapByPointer` (helper.go:69-132): for each
pointer segment, inspect the current node's `type`; descend through
`properties` for an object (the unchecked assertion
`properties[part].(map[string]any)` panics when the property value is
not a mapping); for an array try `items` as a single mapping first and
descend into it unconditionally, otherwise require a positional `items`
sequence and an `Atoi`-parsable segment, error when the index is `>=
len`, and index the slice without a lower bound check — a runtime panic
when the index is negative; any other `type` errors.  After every
descent the node is passed through `SchemaRefParse` before the next
segment.  (The `schema == nil` guard of the source compares against a
nil map, which has no counterpart in the association-list model and is
unreachable from the exported entry point.) -/
def navLoop (raw : List (String × JValue)) (fuel : Nat) :
    List (String × JValue) → List String → GoRes (List (String × JValue))
  | schema, [] => .ok schema
  | schema, part :: parts =>
    if part = "" then .err .invalidPointer
    else
      match schema.lookup "type" with
      | none => .err .invalidSchemaType
      | some ty =>
        match ty with
        | .str "object" =>
          (match schema.lookup "properties" with
           | some (.obj props) =>
             (match props.lookup part with
              | none => .err .propertyNotFound
              | some (.obj child) =>
                (match SchemaRefParse raw fuel child with
                 | .err e => .err e
                 | .crash => .crash
                 | .nofuel => .nofuel
                 | .ok s => navLoop raw fuel s parts)
              | some _ => .crash)
           | _ => .err .invalidProperties)
        | .str "array" =>
          (match schema.lookup "items" with
           | some (.obj items) =>
             (match SchemaRefParse raw fuel items with
              | .err e => .err e
              | .crash => .crash
              | .nofuel => .nofuel
              | .ok s => navLoop raw fuel s parts)
           | some (.arr itemsArr) =>
             if itemsArr.isEmpty then .err .invalidItems
             else if !(atoiOk part.data) then .err .invalidIndexFormat
             else
               let idx := atoiZ part.data
               if (itemsArr.length : Int) ≤ idx then .err .indexOutOfRange
               else if idx < 0 then .crash
               else
                 match itemsArr.getD idx.toNat .null with
                 | .obj child =>
                   (match SchemaRefParse raw fuel child with
                    | .err e => .err e
                    | .crash => .crash
                    | .nofuel => .nofuel
                    | .ok s => navLoop raw fuel s parts)
                 | _ => .err .itemNotMap
           | _ => .err .invalidItems)
        | _ => .err .unsupportedType

/-- The step the navigation loop performs right after descending into a
child node: dereference it with `SchemaRefParse`, then continue the loop
on the remaining segments (helper.go:126-131). -/
def descendStep (raw : List (String × JValue)) (fuel : Nat)
    (child : List (String × JValue)) (parts : List String) :
    GoRes (List (String × JValue)) :=
  match SchemaRefParse raw fuel child with
  | .err e => .err e
  | .crash => .crash
  | .nofuel => .nofuel
  | .ok s => navLoop raw fuel s parts

/-- Entry point `GetSchemaMapByPointer(schema, pointer)`
(helper.go:57-68 and 245-248): empty pointer errors, bare `#` or `/`
returns the root unchanged (and undereferenced), a leading `#` and then
a leading `/` are stripped, and the remainder is split on `/`.  The
exported function starts navigation at the document root, which is also
the `$ref` resolution base. -/
def GetSchemaMapByPointer (fuel : Nat) (raw : List (String × JValue))
    (pointer : String) : GoRes (List (String × JValue)) :=
  if pointer.length < 1 then .err .pointerEmpty
  else if pointer = "#" ∨ pointer = "/" then .ok raw
  else
    let p := match pointer.data with
      | '#' :: rest => String.mk rest
      | _ => pointer
    let q := match p.data with
      | '/' :: rest => String.mk rest
      | _ => p
    navLoop raw fuel raw (goSplit q '/')

/-- Child path formation of `traverse`: `name` at the root, otherwise
`currentPath + "." + name`. -/
def childPath (cur : String) (name : String) : String :=
  if cur = "" then name else cur ++ "." ++ name

/-- Outcome of one `traverse` call: a runtime panic, fuel exhaustion, or
the accumulated access-key list together with whether the call returned
a non-nil error (the keys appended before the error remain, because the
accumulator is shared mutable state on the helper). -/
inductive TravRes where
  | crash
  | nofuel
  | res (keys : List String) (failed : Bool)

/-- The child loops of `traverse` (helper.go:181-187 and 193-199): each
child value is asserted to `map[string]any` (a panic when it is not) and
traversed with its child path; the `_ =` discarded error of a child does
not stop the loop, while a panic or fuel exhaustion propagates. -/
def travList (rec : List (String × JValue) → String → List String → TravRes)
    (mkPath : String → String) :
    List (String × JValue) → List String → TravRes
  | [], acc => .res acc false
  | (name, v) :: rest, acc =>
    match v with
    | .obj child =>
      (match rec child (mkPath name) acc with
       | .crash => .crash
       | .nofuel => .nofuel
       | .res acc2 _ => travList rec mkPath rest acc2)
    | _ => .crash

/-- `traverse(currentSchema, currentPath)` (helper.go:168-217), with the
shared mutable `c.accessKeys` made an explicit accumulator.  The node is
first passed through `SchemaRefParse` (an error returns, leaving the
accumulator); `schema["type"].(string)` panics when `type` is missing or
not a string; an object with `widget == "RawJsonTree"` emits its path,
otherwise its properties are traversed in order; an array with a
positional `items` sequence traverses each indexed item, and with a
single `items` mapping dereferences it and either recurses at
`currentPath + ".*"` (container element type) or emits `currentPath`
(scalar element type); any other type emits `currentPath`. -/
def traverse (raw : List (String × JValue)) :
    Nat → List (String × JValue) → String → List String → TravRes
  | 0, _, _, _ => .nofuel
  | fuel + 1, cur, path, acc =>
    match SchemaRefParse raw fuel cur with
    | .err _ => .res acc true
    | .crash => .crash
    | .nofuel => .nofuel
    | .ok schema =>
      match schema.lookup "type" with
      | some (.str typ) =>
        if typ = "object" then
          match schema.lookup "widget" with
          | some (.str "RawJsonTree") => .res (acc ++ [path]) false
          | _ =>
            match schema.lookup "properties" with
            | some (.obj props) => travList (traverse raw fuel) (childPath path) props acc
            | _ => .res acc false
        else if typ = "array" then
          match schema.lookup "items" with
          | some (.arr itemsArr) =>
            travList (traverse raw fuel) (childPath path)
              (itemsArr.enum.map (fun p => (toString p.1, p.2))) acc
          | some (.obj itemsSchema) =>
            (match SchemaRefParse raw fuel itemsSchema with
             | .err _ => .res acc true
             | .crash => .crash
             | .nofuel => .nofuel
             | .ok its =>
               match its.lookup "type" with
               | some (.str t2) =>
                 if t2 = "array" ∨ t2 = "object" then
                   match traverse raw fuel its (path ++ ".*") acc with
                   | .crash => .crash
                   | .nofuel => .nofuel
                   | .res acc2 _ => .res acc2 false
                 else .res (acc ++ [path]) false
               | _ => .crash)
          | _ => .res acc false
        else .res (acc ++ [path]) false
      | _ => .crash

/-- `GenAccessKeys()` (helper.go:220-233) on a freshly constructed
helper (whose cached key list is empty, so the memoization branch is not
taken): run `traverse` from the root with the empty path, discarding its
error, then drop the first key when it is the empty string — an
unguarded `c.accessKeys[0]` access that panics when the traversal
emitted no key at all. -/
def GenAccessKeys (raw : List (String × JValue)) (fuel : Nat) : GoRes (List String) :=
  match traverse raw fuel raw "" [] with
  | .crash => .crash
  | .nofuel => .nofuel
  | .res keys _ =>
    match keys with
    | [] => .crash
    | k :: rest => .ok (if k = "" then rest else k :: rest)

/-- A schema document with a cyclic reference chain: property `a` refers
to `defs.x`, `defs.x` refers to `defs.y` and `defs.y` refers back to
`defs.x`. -/
def cycSchema : List (String × JValue) :=
  [("type", .str "object"),
   ("properties", .obj [("a", .obj [("$ref", .str "#/defs/x")])]),
   ("defs", .obj [("x", .obj [("$ref", .str "#/defs/y")]),
                  ("y", .obj [("$ref", .str "#/defs/x")])])]

/-- The node stored at property `a` of `cycSchema`. -/
def cycA : List (String × JValue) := [("$ref", .str "#/defs/x")]

/-- The node stored at `defs.x` of `cycSchema`. -/
def cycX : List (String × JValue) := [("$ref", .str "#/defs/y")]

/-- The node stored at `defs.y` of `cycSchema`. -/
def cycY : List (String × JValue) := [("$ref", .str "#/defs/x")]

/-- A schema document whose root node carries a `$ref` to `defs.root`. -/
def rootRefDoc : List (String × JValue) :=
  [("$ref", .str "#/defs/root"),
   ("defs", .obj [("root", .obj [("type", .str "object"),
                                 ("properties", .obj [("a", .obj [("type", .str "string")])])])])]

/-- `rootRefDoc` with the referenced subtree inlined in place of the
root node. -/
def inlinedDoc : List (String × JValue) :=
  [("type", .str "object"),
   ("properties", .obj [("a", .obj [("type", .str "string")])])]

/-- A document whose property `a` is a `$ref` node pointing at the
sibling entry `d`, a string schema. -/
def transparencyDoc : List (String × JValue) :=
  [("type", .str "object"),
   ("properties", .obj [("a", .obj [("$ref", .str "#/d")])]),
   ("d", .obj [("type", .str "string")])]

/-- An array schema whose `items` is a single (homogeneous) schema
node. -/
def homogSchema : List (String × JValue) :=
  [("type", .str "array"), ("items", .obj [("type", .str "string")])]

/-- The tuple-array schema of the spec's example: `items` is a
positional sequence holding a number schema and an object schema with a
`baz` string property. -/
def tupleSchema : List (String × JValue) :=
  [("type", .str "array"),
   ("items", .arr [.obj [("type", .str "number")],
                   .obj [("type", .str "object"),
                         ("properties", .obj [("baz", .obj [("type", .str "string")])])]])]

/-- The wildcard-flattening example data:
`{"pets":[{"type":"cat"},{"type":"dog"}]}`. -/
def petsData : JValue :=
  .obj [("pets", .arr [.obj [("type", .str "cat")], .obj [("type", .str "dog")]])]

theorem splitSep_append (sep : Char) (x : List Char) (l : List Char) (acc : List Char)
    (h : ∀ c ∈ x, c ≠ sep) :
    splitSep sep (x ++ l) acc = splitSep sep l (x.reverse ++ acc) := by
  induction x generalizing acc with
  | nil => simp
  | cons c cs ih =>
    have hc : c ≠ sep := h c (List.mem_cons_self c cs)
    simp only [List.cons_append, splitSep, if_neg hc, List.append_eq]
    rw [ih (c :: acc) (fun d hd => h d (List.mem_cons_of_mem c hd))]
    simp

theorem splitSep_joinSeps (sep : Char) :
    ∀ ls : List (List Char), ls ≠ [] → (∀ x ∈ ls, ∀ c ∈ x, c ≠ sep) →
      splitSep sep (joinSeps sep ls) [] = ls := by
  intro ls
  induction ls with
  | nil => intro h _; exact absurd rfl h
  | cons x xs ih =>
    intro _ h
    cases xs with
    | nil =>
      have hx := h x (List.mem_cons_self x [])
      have hstep := splitSep_append sep x [] [] hx
      simpa [joinSeps, splitSep] using hstep
    | cons y ys =>
      have hx := h x (List.mem_cons_self x (y :: ys))
      show splitSep sep (x ++ sep :: joinSeps sep (y :: ys)) [] = x :: y :: ys
      rw [splitSep_append sep x (sep :: joinSeps sep (y :: ys)) [] hx]
      simp only [splitSep, if_pos rfl]
      rw [ih (by simp) (fun z hz => h z (List.mem_cons_of_mem x hz))]
      simp

theorem goSplit_joinDot (l : List String) (hne : l ≠ [])
    (hdot : ∀ s ∈ l, '.' ∉ s.data) :
    goSplit (joinDot l) '.' = l := by
  unfold goSplit joinDot
  have hchars : ∀ x ∈ l.map String.data, ∀ c ∈ x, c ≠ '.' := by
    intro x hx c hc
    obtain ⟨s, hs, rfl⟩ := List.mem_map.1 hx
    exact fun hceq => (hdot s hs) (hceq ▸ hc)
  have hmapne : l.map String.data ≠ [] := by simpa using hne
  rw [show (String.mk (joinSeps '.' (l.map String.data))).data
        = joinSeps '.' (l.map String.data) from rfl]
  rw [splitSep_joinSeps '.' (l.map String.data) hmapne hchars]
  rw [List.map_map]
  rw [show (String.mk ∘ String.data) = id from funext fun s => rfl, List.map_id]

theorem wildFold_vals (f : JValue → EvalRes) :
    ∀ (xs vs : List JValue) (acc : List JValue),
      xs.map f = vs.map EvalRes.val →
      wildFold f acc xs = .val (.arr (acc ++ (vs.map splicePieces).flatten)) := by
  intro xs
  induction xs with
  | nil =>
    intro vs acc h
    cases vs with
    | nil => simp [wildFold]
    | cons v vs' => simp at h
  | cons x xs' ih =>
    intro vs acc h
    cases vs with
    | nil => simp at h
    | cons v vs' =>
      simp only [List.map_cons, List.cons.injEq] at h
      obtain ⟨h1, h2⟩ := h
      simp only [wildFold, h1]
      rw [ih vs' (acc ++ splicePieces v) h2]
      simp

theorem srp_noref (raw : List (String × JValue)) (fuel : Nat)
    (s : List (String × JValue)) (h : s.lookup "$ref" = none) :
    SchemaRefParse raw fuel s = .ok s := by
  cases fuel <;> simp [SchemaRefParse, h]

theorem srp_ok_noref (raw : List (String × JValue)) :
    ∀ (fuel : Nat) (s t : List (String × JValue)),
      SchemaRefParse raw fuel s = .ok t → t.lookup "$ref" = none := by
  intro fuel
  induction fuel with
  | zero =>
    intro s t h
    cases hs : s.lookup "$ref" with
    | none =>
      rw [srp_noref raw 0 s hs] at h
      cases h; exact hs
    | some v =>
      simp only [SchemaRefParse, hs] at h
      cases v <;> simp at h
      case str ref =>
        cases hr : ResolveRef raw ref <;> simp [hr] at h
  | succ n ih =>
    intro s t h
    cases hs : s.lookup "$ref" with
    | none =>
      rw [srp_noref raw (n + 1) s hs] at h
      cases h; exact hs
    | some v =>
      simp only [SchemaRefParse, hs] at h
      cases v <;> simp at h
      case str ref =>
        cases hr : ResolveRef raw ref <;> simp [hr] at h
        exact ih _ _ h

theorem srp_cyc_xy (fuel : Nat) :
    SchemaRefParse cycSchema fuel cycX = .nofuel
      ∧ SchemaRefParse cycSchema fuel cycY = .nofuel := by
  induction fuel with
  | zero => exact ⟨rfl, rfl⟩
  | succ n ih =>
    refine ⟨?_, ?_⟩
    · show SchemaRefParse cycSchema n cycY = .nofuel
      exact ih.2
    · show SchemaRefParse cycSchema n cycX = .nofuel
      exact ih.1

theorem srp_cyc_a (fuel : Nat) : SchemaRefParse cycSchema fuel cycA = .nofuel := by
  cases fuel with
  | zero => rfl
  | succ n =>
    show SchemaRefParse cycSchema n cycX = .nofuel
    exact (srp_cyc_xy n).1

theorem traverse_cyc_a (fuel : Nat) : traverse cycSchema fuel cycA "a" [] = .nofuel := by
  cases fuel with
  | zero => rfl
  | succ n =>
    simp only [traverse]
    rw [srp_cyc_a n]

/-- C1: on the cyclic document `cycSchema` (ref `a` → `defs.x` →
`defs.y` → `defs.x` → …), neither pointer navigation of `/a` nor access
key generation ever terminates, at any fuel: the Go code's visited set
never detects the revisit, so both calls recurse forever instead of
failing with the circular-reference error. -/
theorem c1_cyclic_ref_diverges (fuel : Nat) :
    GetSchemaMapByPointer fuel cycSchema "/a" = .nofuel
      ∧ GenAccessKeys cycSchema fuel = .nofuel := by
  constructor
  · show (match SchemaRefParse cycSchema fuel cycA with
          | .err e => GoRes.err e
          | .crash => GoRes.crash
          | .nofuel => GoRes.nofuel
          | .ok s => navLoop cycSchema fuel s []) = GoRes.nofuel
    rw [srp_cyc_a fuel]
  · cases fuel with
    | zero => rfl
    | succ n =>
      have hroot : SchemaRefParse cycSchema n cycSchema = .ok cycSchema :=
        srp_noref cycSchema n cycSchema rfl
      have h1 : traverse cycSchema (n + 1) cycSchema "" []
          = travList (traverse cycSchema n) (childPath "") [("a", JValue.obj cycA)] [] := by
        simp only [traverse, hroot]
        rfl
      have h2 : travList (traverse cycSchema n) (childPath "") [("a", JValue.obj cycA)] []
          = .nofuel := by
        simp only [travList]
        rw [show childPath "" "a" = "a" from rfl, traverse_cyc_a n]
      simp only [GenAccessKeys, h1, h2]

/-- C2: on a sequence, a non-negative integer segment that is out of
range — or in range with a null element — makes the whole evaluation
return the empty sequence, while on a mapping a missing key or a null
stored value makes it return nil (absent); the two outcomes are
distinct values. -/
theorem c2_absent_empty_asymmetry (fuel : Nat) (a : List JValue)
    (m : List (String × JValue)) (k : String) (rest : List String)
    (hstar : k ≠ "*") (hd : hasStarDotDigit k.data = false)
    (ho : hasStarDotOther k.data = false) :
    ((a.length : Int) ≤ atoiZ k.data →
        findKeysF (fuel + 1) (.arr a) (k :: rest) = .val (.arr []))
    ∧ (0 ≤ atoiZ k.data → (atoiZ k.data).toNat < a.length →
        a.getD (atoiZ k.data).toNat .null = .null →
        findKeysF (fuel + 1) (.arr a) (k :: rest) = .val (.arr []))
    ∧ ((m.lookup k).getD .null = .null →
        findKeysF (fuel + 1) (.obj m) (k :: rest) = .val .null)
    ∧ JValue.arr [] ≠ JValue.null := by
  refine ⟨?_, ?_, ?_, fun hv => JValue.noConfusion hv⟩
  · intro hle
    simp only [findKeysF, if_neg hstar, hd]
    simp only [Bool.false_eq_true, if_false, if_pos hle]
  · intro h0 hlt hnull
    have hlt2 : atoiZ k.data < (a.length : Int) := by omega
    simp only [findKeysF, if_neg hstar, hd]
    simp only [Bool.false_eq_true, if_false, if_neg (not_le.mpr hlt2),
      if_neg (not_lt.mpr h0)]
    rw [hnull]
  · intro hmiss
    simp only [findKeysF, if_neg hstar, ho]
    simp only [Bool.false_eq_true, if_false]
    cases hm : m.lookup k with
    | none => simp [hm]
    | some v =>
      have hv : v = .null := by simpa [hm] using hmiss
      subst hv
      simp [hm]

/-- C2 witness: index 5 on an empty sequence gives the empty sequence;
index 0 on a sequence whose head is null gives the empty sequence;
missing key `b` on `{"a":1}` gives nil; the two outcomes differ. -/
theorem c2_absent_empty_asymmetry_witness :
    findKeysF 1 (.arr []) ["5"] = .val (.arr [])
    ∧ findKeysF 1 (.arr [JValue.null]) ["0"] = .val (.arr [])
    ∧ findKeysF 1 (.obj [("a", .num 1)]) ["b"] = .val .null
    ∧ JValue.arr [] ≠ JValue.null := by
  refine ⟨?_, ?_, ?_, ?_⟩
  · exact (c2_absent_empty_asymmetry 0 [] [] "5" []
      (by decide) (by decide) (by decide)).1 (by decide)
  · exact (c2_absent_empty_asymmetry 0 [JValue.null] [] "0" []
      (by decide) (by decide) (by decide)).2.1 (by decide) (by decide) rfl
  · exact (c2_absent_empty_asymmetry 0 [] [("a", JValue.num 1)] "b" []
      (by decide) (by decide) (by decide)).2.2.1 rfl
  · exact (c2_absent_empty_asymmetry 0 [] [] "x" []
      (by decide) (by decide) (by decide)).2.2.2

/-- C3 counterexample: with the wildcard as the final segment, the code
does not append the element itself (a non-null single result of
evaluating zero remaining segments, which the claim requires): on data
`[2]` and access key `*` it returns the empty sequence, not `[2]`. -/
theorem c3_trailing_wildcard_counterexample :
    FindDataByAccessKey 5 (.arr [.num 2]) "*" = .val (.arr [])
      ∧ JValue.arr [] ≠ JValue.arr [JValue.num 2] :=
  ⟨rfl, by simp⟩

/-- C3 amended: on a sequence, a `*` segment that is followed by at
least one further segment evaluates the remaining segments against each
element in order and immediately returns the collection obtained by
splicing sequence results, appending single results and dropping
null/absent results.  (When `*` is the last segment the code instead
re-evaluates each element against a single empty-string segment, which
drops scalar and mapping elements.) -/
theorem c3_wildcard_broadcast (fuel : Nat) (a : List JValue)
    (rest : List String) (vs : List JValue)
    (hne : rest ≠ []) (hdot : ∀ s ∈ rest, '.' ∉ s.data)
    (hvs : a.map (fun e => findKeysF fuel e rest) = vs.map EvalRes.val) :
    findKeysF (fuel + 1) (.arr a) ("*" :: rest)
      = .val (.arr (vs.map splicePieces).flatten) := by
  have hsplit : goSplit (joinDot rest) '.' = rest := goSplit_joinDot rest hne hdot
  show wildFold (fun e => findKeysF fuel e (goSplit (joinDot rest) '.')) [] a = _
  rw [hsplit]
  rw [wildFold_vals (fun e => findKeysF fuel e rest) a vs [] hvs]
  simp

/-- C3 witness: `pets.*.type` on
`{"pets":[{"type":"cat"},{"type":"dog"}]}` returns `["cat","dog"]`, and
the wildcard step itself broadcasts `type` over the two elements. -/
theorem c3_wildcard_broadcast_witness :
    FindDataByAccessKey 9 petsData "pets.*.type" = .val (.arr [.str "cat", .str "dog"])
    ∧ findKeysF 3 (.arr [.obj [("type", .str "cat")], .obj [("type", .str "dog")]])
        ["*", "type"] = .val (.arr [.str "cat", .str "dog"]) := by
  constructor
  · rfl
  · exact c3_wildcard_broadcast 2
      [.obj [("type", .str "cat")], .obj [("type", .str "dog")]]
      ["type"] [.str "cat", .str "dog"] (by decide) (by decide) rfl

/-- C4: the evaluator is not total — the segment `-1` on the one-element
sequence `[1]` parses to a negative index that passes the `index >=
len(arrData)` guard and then indexes the slice, a runtime panic in Go,
modelled as `crash`. -/
theorem c4_negative_index_crash :
    FindDataByAccessKey 5 (.arr [.num 1]) "-1" = .crash := rfl

/-- C5 counterexample: a `$ref` at the document root is not
dereferenced — navigating `/a` on `rootRefDoc` fails with the
invalid-schema-type error, while on the document with the referenced
subtree inlined in place of the root it returns the string schema. -/
theorem c5_root_ref_counterexample :
    GetSchemaMapByPointer 9 rootRefDoc "/a" = .err .invalidSchemaType
      ∧ GetSchemaMapByPointer 9 inlinedDoc "/a" = .ok [("type", .str "string")] :=
  ⟨rfl, rfl⟩

/-- C5 amended: ref transparency holds at every descent step — after
navigation descends into a child node, continuing from a child that
carries a `$ref` chain resolving to `c` is identical to continuing from
`c` itself inlined in its place; dereferencing happens after each
descent before the next segment inspects a `type`.  (Only the document
root escapes this: it is inspected without dereferencing.) -/
theorem c5_ref_transparent_after_descent (raw : List (String × JValue))
    (fuel : Nat) (child c : List (String × JValue)) (parts : List String)
    (h : SchemaRefParse raw fuel child = .ok c) :
    descendStep raw fuel child parts = descendStep raw fuel c parts := by
  have hn : c.lookup "$ref" = none := srp_ok_noref raw fuel child c h
  unfold descendStep
  rw [h, srp_noref raw fuel c hn]

/-- C5 witness: descending into the `$ref` node at property `a` of
`transparencyDoc` continues exactly as descending into the referenced
string schema inlined in its place. -/
theorem c5_ref_transparent_after_descent_witness :
    descendStep transparencyDoc 5 [("$ref", .str "#/d")] []
      = descendStep transparencyDoc 5 [("type", .str "string")] [] :=
  c5_ref_transparent_after_descent transparencyDoc 5
    [("$ref", .str "#/d")] [("type", .str "string")] [] rfl

/-- C6 counterexample: on an array schema whose `items` is a single
schema node, the `-` append-token segment does not produce an error —
the pointer whose single segment is the dash token descends on
`homogSchema` into the items schema and returns it. -/
theorem c6_dash_descends_counterexample :
    GetSchemaMapByPointer 9 homogSchema "/-" = .ok [("type", .str "string")] := rfl

/-- C6 amended: for an array-typed node whose `items` is a single
schema node, navigation consumes the current segment and descends into
the items schema unconditionally, without index-checking — any non-empty
segment, the `-` append-token and other non-numeric sentinels included,
is accepted (such segments error only when `items` is a positional
sequence). -/
theorem c6_homogeneous_items_descend (raw : List (String × JValue)) (fuel : Nat)
    (schema m : List (String × JValue)) (part : String) (parts : List String)
    (hp : part ≠ "") (hty : schema.lookup "type" = some (.str "array"))
    (hit : schema.lookup "items" = some (.obj m)) :
    navLoop raw fuel schema (part :: parts) = descendStep raw fuel m parts := by
  simp only [navLoop, if_neg hp, hty, hit]
  rfl

/-- C6 witness: pointer segment `-` on the homogeneous array schema
descends into its string items schema. -/
theorem c6_homogeneous_items_descend_witness :
    navLoop homogSchema 5 homogSchema ["-"]
      = descendStep homogSchema 5 [("type", .str "string")] [] :=
  c6_homogeneous_items_descend homogSchema 5 homogSchema
    [("type", .str "string")] "-" [] (by decide) rfl rfl

/-- C7: on the tuple-array schema, `/0` returns the number schema and
`/1/baz` the string schema, `/2` fails with the index-out-of-range
error — but the negative pointer segment `-1` passes the `index >= len` guard
and indexes the items slice with a negative index, a runtime panic in
Go rather than the error the claim requires. -/
theorem c7_tuple_pointer_behavior :
    GetSchemaMapByPointer 9 tupleSchema "/0" = .ok [("type", .str "number")]
    ∧ GetSchemaMapByPointer 9 tupleSchema "/1/baz" = .ok [("type", .str "string")]
    ∧ GetSchemaMapByPointer 9 tupleSchema "/2" = .err .indexOutOfRange
    ∧ GetSchemaMapByPointer 9 tupleSchema "/-1" = .crash :=
  ⟨rfl, rfl, rfl, rfl⟩

/-- C8: `ResolveRef` errors on a ref without the `#` prefix and on a
missing segment, and resolves a well-formed local ref — but an
intermediate (or final) value that is not a mapping hits the unchecked
type assertion `target[part].(map[string]any)`, a runtime panic rather
than the error the claim requires: walking `#/a/b` over `{"a":1}`
crashes. -/
theorem c8_resolveref_behavior :
    ResolveRef [("a", .num 1)] "defs/a" = .err .nonLocalRef
    ∧ ResolveRef [("a", .num 1)] "#/b" = .err .refNotFound
    ∧ ResolveRef [("a", .num 1)] "#/a/b" = .crash
    ∧ ResolveRef [("defs", .obj [("a", .obj [("type", .str "string")])])] "#/defs/a"
        = .ok [("type", .str "string")] :=
  ⟨rfl, rfl, rfl, rfl⟩

/-- C9: `GenAccessKeys` does drop a leading empty key (a scalar root
yields the empty list), but on a well-formed object schema with an empty
`properties` mapping the traversal emits no key at all and the unguarded
`c.accessKeys[0]` access panics instead of returning an empty list. -/
theorem c9_genaccesskeys_behavior :
    GenAccessKeys [("type", .str "object"), ("properties", .obj [])] 5 = .crash
      ∧ GenAccessKeys [("type", .str "string")] 5 = .ok [] :=
  ⟨rfl, rfl⟩

/-- C10: on a sequence, a segment that is not `*`, matches no compound
wildcard token and does not parse as an integer is treated exactly like
the segment `0` — `strconv.Atoi`'s error is ignored and its zero result
used — so evaluation descends into the first element (when that element
is not null). -/
theorem c10_nonnumeric_index_zero (fuel : Nat) (k : String) (rest : List String)
    (a : List JValue) (x : JValue) (xs : List JValue)
    (hstar : k ≠ "*") (hd : hasStarDotDigit k.data = false)
    (hok : atoiOk k.data = false) (hx : x ≠ JValue.null) :
    (findKeysF (fuel + 1) (.arr a) (k :: rest)
        = findKeysF (fuel + 1) (.arr a) ("0" :: rest))
    ∧ findKeysF (fuel + 1) (.arr (x :: xs)) (k :: rest) = findKeysF fuel x rest := by
  have hz : atoiZ k.data = 0 := by simp [atoiZ, hok]
  constructor
  · simp only [findKeysF, if_neg hstar, hd]
    simp only [Bool.false_eq_true, if_false, hz]
    rfl
  · simp only [findKeysF, if_neg hstar, hd]
    simp only [Bool.false_eq_true, if_false, hz]
    have hlen : ¬ ((x :: xs).length : Int) ≤ 0 := by simp
    rw [if_neg hlen, if_neg (by omega : ¬ (0 : Int) < 0)]
    cases x with
    | null => exact absurd rfl hx
    | bool b => rfl
    | num n => rfl
    | str s => rfl
    | arr ys => rfl
    | obj kvs => rfl

/-- C10 witness: segment `foo` on `[7]` behaves as segment `0`, and on
`[7, 8]` evaluation descends into the first element `7`. -/
theorem c10_nonnumeric_index_zero_witness :
    (findKeysF 3 (.arr [.num 7]) ["foo"] = findKeysF 3 (.arr [.num 7]) ["0"])
    ∧ findKeysF 3 (.arr [.num 7, .num 8]) ["foo"] = findKeysF 2 (.num 7) [] :=
  ⟨(c10_nonnumeric_index_zero 2 "foo" [] [.num 7] (.num 7) []
      (by decide) (by decide) (by decide) (fun h => JValue.noConfusion h)).1,
   (c10_nonnumeric_index_zero 2 "foo" [] [] (.num 7) [.num 8]
      (by decide) (by decide) (by decide) (fun h => JValue.noConfusion h)).2⟩

end JsonschemaSpec
